import Mathlib

/-!
Verification of the `takes` crate: a seekable `Take` wrapper (`Takes<R>`)
over a `Read + Seek` stream, restricting reads to a window of `limit` bytes
beginning at the position `start` captured at construction.

The embedding is a shallow one. The underlying stream is abstract: a state
type `ρ` together with a read function `ρ → Nat → Except IOError Nat × ρ`
(requested byte count to result and successor state) and a seek function
`ρ → SeekFrom → Except IOError Nat × ρ` (returning the new absolute
position). Machine integers are `Nat` (u64 and usize, assumed 64-bit) and
`Int` (i64); the `as i64` and `as u64` casts of the source are modelled by
explicit wrapping functions. The unchecked u64 subtraction
`self.limit - self.current` in `read` is modelled with an explicit overflow
branch (the debug-build overflow check), since one claim concerns exactly
that branch; the additions wrap modulo `2 ^ 64` as in a release build.
Panics (`unimplemented!` and the overflow check) are a third outcome next
to `Ok` and `Err`.
-/

/-- Kinds of `std::io::Error` values that appear in this development: the
`ErrorKind::UnexpectedEof` error the wrapper raises itself, and arbitrary
other errors produced by the underlying stream. -/
inductive IOError where
  | unexpectedEof (msg : String)
  | other (kind : Nat) (msg : String)
deriving DecidableEq

/-- The window-violation error raised by `Takes::seek`
(src/lib.rs lines 71 and 78). -/
def windowViolation : IOError :=
  IOError.unexpectedEof "cannot seek beyond Takes range"

/-- Embedding of `std::io::SeekFrom`. `start` carries a u64, the two delta
variants carry an i64. -/
inductive SeekFrom where
  | start (offset : Nat)
  | current (delta : Int)
  | fromEnd (delta : Int)
deriving DecidableEq

/-- Result of one operation of the wrapper: an ordinary return value, an
`Err` return, or a panic (carrying the panic message). -/
inductive Outcome (α : Type) where
  | ok (a : α)
  | err (e : IOError)
  | abort (msg : String)
deriving DecidableEq

/-- Embedding of the struct `Takes<R>` (src/lib.rs lines 35 to 40):
`start` and `limit` are u64, `current` is the number of bytes of the
current pointer from `start`. -/
structure Takes (ρ : Type) where
  inner : ρ
  start : Nat
  limit : Nat
  current : Nat
deriving DecidableEq

/-- Wrapping cast of a u64 value to i64, the `self.current as i64` of
src/lib.rs line 76. -/
def i64ofU64 (n : Nat) : Int :=
  if n < 2 ^ 63 then (n : Int) else (n : Int) - 2 ^ 64

/-- Reduction of an integer into the i64 range, modelling wrapping 64-bit
signed addition (release-build semantics of `+` on i64). -/
def wrapI64 (x : Int) : Int :=
  (x + 2 ^ 63) % 2 ^ 64 - 2 ^ 63

/-- Wrapping cast of an i64 value to u64, the `dest as u64` of
src/lib.rs line 77. -/
def u64ofI64 (x : Int) : Nat :=
  (x % (2 ^ 64 : Int)).toNat

/-- Embedding of `Ext::takes` (src/lib.rs lines 20 to 29): query the
current position with a zero-delta relative seek, then build the wrapper
with `current = 0`. Only a seek capability of the stream is consulted;
no read function is even a parameter. -/
def takes {ρ : Type} (seekFn : ρ → SeekFrom → Except IOError Nat × ρ)
    (stream : ρ) (limit : Nat) : Except IOError (Takes ρ) :=
  match seekFn stream (SeekFrom.current 0) with
  | (Except.error e, _) => Except.error e
  | (Except.ok start, stream1) =>
      Except.ok { inner := stream1, start := start, limit := limit, current := 0 }

/-- Embedding of `<Takes<R> as Read>::read` (src/lib.rs lines 44 to 55).
The subtraction `self.limit - self.current` carries its debug overflow
branch explicitly; `buf.len() as u64` and the final `as usize` are
identities on a 64-bit platform; `self.current += n as u64` wraps modulo
`2 ^ 64`. -/
def Takes.read {ρ : Type} (readFn : ρ → Nat → Except IOError Nat × ρ)
    (t : Takes ρ) (bufLen : Nat) : Outcome Nat × Takes ρ :=
  if t.limit < t.current then
    (Outcome.abort "attempt to subtract with overflow", t)
  else
    let rem := t.limit - t.current
    if rem = 0 then (Outcome.ok 0, t)
    else
      let max := min bufLen rem
      match readFn t.inner max with
      | (Except.error e, inner1) => (Outcome.err e, { t with inner := inner1 })
      | (Except.ok n, inner1) =>
          (Outcome.ok n,
            { t with inner := inner1, current := (t.current + n) % 2 ^ 64 })

/-- Embedding of the delegation idiom `Ok(self.inner.seek(x)?)` of
src/lib.rs lines 73 and 80: forward the request to the underlying stream,
return its position on success and its error verbatim on failure; the
bookkeeping fields are untouched either way. -/
def delegateSeek {ρ : Type} (seekFn : ρ → SeekFrom → Except IOError Nat × ρ)
    (t : Takes ρ) (sf : SeekFrom) : Outcome Nat × Takes ρ :=
  match seekFn t.inner sf with
  | (Except.error e, inner1) => (Outcome.err e, { t with inner := inner1 })
  | (Except.ok p, inner1) => (Outcome.ok p, { t with inner := inner1 })

/-- Embedding of `<Takes<R> as Seek>::seek` (src/lib.rs lines 67 to 84).
The `SeekFrom::Start` arm compares the absolute `offset` against `start`
and against the relative field `current` exactly as the source does; the
`SeekFrom::Current` arm computes `dest = (self.current as i64) + delta`
with wrapping i64 arithmetic; the `SeekFrom::End` arm is
`unimplemented!`. -/
def Takes.seek {ρ : Type} (seekFn : ρ → SeekFrom → Except IOError Nat × ρ)
    (t : Takes ρ) (sf : SeekFrom) : Outcome Nat × Takes ρ :=
  match sf with
  | SeekFrom.start offset =>
      if offset < t.start ∨ t.current < offset then (Outcome.err windowViolation, t)
      else delegateSeek seekFn t (SeekFrom.start offset)
  | SeekFrom.current delta =>
      let dest := wrapI64 (i64ofU64 t.current + delta)
      if dest < 0 ∨ t.limit < u64ofI64 dest then (Outcome.err windowViolation, t)
      else delegateSeek seekFn t (SeekFrom.current delta)
  | SeekFrom.fromEnd _ =>
      (Outcome.abort "not implemented: SeekFrom::End implementation would be ambiguous", t)

/-- A read function honours the `Read` contract when it never reports more
bytes than were requested. -/
def Conforming {ρ : Type} (readFn : ρ → Nat → Except IOError Nat × ρ) : Prop :=
  ∀ s k n s1, readFn s k = (Except.ok n, s1) → n ≤ k

/-- Total number of bytes reported over a sequence of reads with the given
buffer sizes, together with the final wrapper state; failing or panicking
reads contribute zero bytes. -/
def runReads {ρ : Type} (readFn : ρ → Nat → Except IOError Nat × ρ) :
    Takes ρ → List Nat → Nat × Takes ρ
  | t, [] => (0, t)
  | t, k :: ks =>
      match Takes.read readFn t k with
      | (Outcome.ok n, t1) =>
          let r := runReads readFn t1 ks
          (n + r.1, r.2)
      | (_, t1) => runReads readFn t1 ks

/-- States of the wrapper reachable from construction by any sequence of
read and seek operations. -/
inductive Reachable {ρ : Type} (readFn : ρ → Nat → Except IOError Nat × ρ)
    (seekFn : ρ → SeekFrom → Except IOError Nat × ρ) : Takes ρ → Prop where
  | init (s : ρ) (limit : Nat) (t : Takes ρ) :
      takes seekFn s limit = Except.ok t → Reachable readFn seekFn t
  | read (t : Takes ρ) (k : Nat) :
      Reachable readFn seekFn t → Reachable readFn seekFn (Takes.read readFn t k).2
  | seek (t : Takes ρ) (sf : SeekFrom) :
      Reachable readFn seekFn t → Reachable readFn seekFn (Takes.seek seekFn t sf).2

/-- Concrete stream over the unit state whose reads always report zero
bytes; it trivially honours the `Read` contract. -/
def zeroRead : Unit → Nat → Except IOError Nat × Unit :=
  fun s _ => (Except.ok 0, s)

/-- Concrete stream over the unit state whose reads always fail. -/
def errRead : Unit → Nat → Except IOError Nat × Unit :=
  fun s _ => (Except.error (IOError.other 1 "read failure"), s)

/-- Concrete stream over the unit state whose seeks always succeed,
reporting position 7. -/
def okSeek : Unit → SeekFrom → Except IOError Nat × Unit :=
  fun s _ => (Except.ok 7, s)

/-- Concrete stream over the unit state whose seeks always fail. -/
def errSeek : Unit → SeekFrom → Except IOError Nat × Unit :=
  fun s _ => (Except.error (IOError.other 2 "seek failure"), s)

/-- C8: invoking seek with the relative-to-end variant panics for every
state and every argument: the outcome is the `unimplemented!` panic, never
an ordinary value or error; the state is returned unchanged; and the
underlying stream is never contacted, since the result is the same for
every seek function. -/
theorem c8_seek_from_end_aborts {ρ : Type}
    (seekFn : ρ → SeekFrom → Except IOError Nat × ρ) (t : Takes ρ) (delta : Int) :
    Takes.seek seekFn t (SeekFrom.fromEnd delta) =
      (Outcome.abort "not implemented: SeekFrom::End implementation would be ambiguous", t) :=
  rfl

/-- C9: `takes` queries the position by a zero-delta relative seek; when
that seek reports position `p` it returns the wrapper with `start = p`,
the given `limit`, and `current = 0`; when that seek fails the error is
propagated. No read capability of the stream is even a parameter of
`takes`, so no data is read. -/
theorem c9_takes_construction {ρ : Type}
    (seekFn : ρ → SeekFrom → Except IOError Nat × ρ) (s : ρ) (limit : Nat) :
    (∀ p s1, seekFn s (SeekFrom.current 0) = (Except.ok p, s1) →
        takes seekFn s limit =
          Except.ok { inner := s1, start := p, limit := limit, current := 0 }) ∧
    (∀ e s1, seekFn s (SeekFrom.current 0) = (Except.error e, s1) →
        takes seekFn s limit = Except.error e) := by
  constructor
  · intro p s1 h
    unfold takes
    rw [h]
  · intro e s1 h
    unfold takes
    rw [h]

/-- Witness for C9 at the two concrete streams. -/
theorem c9_takes_construction_witness :
    takes okSeek () 5 = Except.ok { inner := (), start := 7, limit := 5, current := 0 } ∧
    takes errSeek () 5 = Except.error (IOError.other 2 "seek failure") :=
  ⟨(c9_takes_construction okSeek () 5).1 7 () rfl,
   (c9_takes_construction errSeek () 5).2 (IOError.other 2 "seek failure") () rfl⟩

/-- C4: when the window is exhausted (`limit = current`, so `rem = 0`),
read returns `Ok(0)` at once with the wrapper unchanged, for every read
function — so the underlying stream is never invoked; in particular, the
first read after a construction with `limit = 0` returns 0 bytes. -/
theorem c4_read_exhausted {ρ : Type} (readFn : ρ → Nat → Except IOError Nat × ρ)
    (seekFn : ρ → SeekFrom → Except IOError Nat × ρ)
    (t : Takes ρ) (bufLen : Nat) (s : ρ) :
    (t.limit = t.current → Takes.read readFn t bufLen = (Outcome.ok 0, t)) ∧
    (∀ t0, takes seekFn s 0 = Except.ok t0 →
        Takes.read readFn t0 bufLen = (Outcome.ok 0, t0)) := by
  constructor
  · intro h
    simp [Takes.read, h]
  · intro t0 h
    unfold takes at h
    split at h
    · cases h
    · rename_i p s1 heq
      cases h
      simp [Takes.read]

/-- Witness for C4: the failing reader is never consulted, both in a state
with the window exhausted mid-stream and right after construction with
limit 0. -/
theorem c4_read_exhausted_witness :
    Takes.read errRead { inner := (), start := 3, limit := 4, current := 4 } 10 =
      (Outcome.ok 0, { inner := (), start := 3, limit := 4, current := 4 }) ∧
    Takes.read errRead { inner := (), start := 7, limit := 0, current := 0 } 10 =
      (Outcome.ok 0, { inner := (), start := 7, limit := 0, current := 0 }) :=
  ⟨(c4_read_exhausted errRead okSeek
      { inner := (), start := 3, limit := 4, current := 4 } 10 ()).1 rfl,
   (c4_read_exhausted errRead okSeek
      { inner := (), start := 3, limit := 4, current := 4 } 10 ()).2
      { inner := (), start := 7, limit := 0, current := 0 } rfl⟩

/-- C1 counterexample: in the state with `start = 10`, `limit = 0`,
`current = 0` — a wrapper freshly constructed at stream position 10 — the
absolute offset 10 satisfies `start ≤ offset ≤ start + current`, yet seek
returns the window-violation error (with an underlying stream whose seeks
always succeed): the source compares the absolute offset against the
relative field `current`. -/
theorem c1_absolute_seek_bound_bug :
    (10 : Nat) ≤ 10 ∧ (10 : Nat) ≤ 10 + 0 ∧
    Takes.seek okSeek { inner := (), start := 10, limit := 0, current := 0 }
        (SeekFrom.start 10) =
      (Outcome.err windowViolation,
        { inner := (), start := 10, limit := 0, current := 0 }) := by
  refine ⟨Nat.le_refl 10, Nat.le_refl 10, ?_⟩
  decide

/-- C2 counterexample: in the state with `start = 5`, `limit = 3`,
`current = 0`, the absolute seek to `offset = start = 5` returns the
window-violation error although the underlying stream seeks successfully,
contradicting the claim that seeking to `start` always succeeds. -/
theorem c2_seek_to_start_fails :
    Takes.seek okSeek { inner := (), start := 5, limit := 3, current := 0 }
        (SeekFrom.start 5) =
      (Outcome.err windowViolation,
        { inner := (), start := 5, limit := 3, current := 0 }) := by
  decide

/-- Helper: the wrapping reduction really lands in the i64 range. -/
theorem wrapI64_mem (x : Int) : -(2 ^ 63) ≤ wrapI64 x ∧ wrapI64 x < 2 ^ 63 := by
  unfold wrapI64
  have h1 : 0 ≤ (x + 2 ^ 63) % 2 ^ 64 := Int.emod_nonneg _ (by norm_num)
  have h2 : (x + 2 ^ 63) % 2 ^ 64 < 2 ^ 64 := Int.emod_lt_of_pos _ (by norm_num)
  omega

/-- Helper: the u64 cast of a nonnegative in-range i64 value is that
value. -/
theorem u64ofI64_of_nonneg (x : Int) (h0 : 0 ≤ x) (h1 : x < 2 ^ 63) :
    (u64ofI64 x : Int) = x := by
  unfold u64ofI64
  rw [Int.emod_eq_of_lt h0 (by omega)]
  exact Int.toNat_of_nonneg h0

/-- C3: a relative seek computes `dest = (current as i64) + delta` in
64-bit signed arithmetic; when `0 ≤ dest ≤ limit` it delegates the same
relative seek to the underlying stream and returns its result; when
`dest < 0` or `dest > limit` it returns the window-violation error with
the wrapper unchanged, for every seek function — so the underlying stream
is not invoked in the failure case. -/
theorem c3_relative_seek {ρ : Type}
    (seekFn : ρ → SeekFrom → Except IOError Nat × ρ) (t : Takes ρ) (delta : Int) :
    ((0 ≤ wrapI64 (i64ofU64 t.current + delta) ∧
        wrapI64 (i64ofU64 t.current + delta) ≤ (t.limit : Int)) →
      Takes.seek seekFn t (SeekFrom.current delta) =
        delegateSeek seekFn t (SeekFrom.current delta)) ∧
    ((wrapI64 (i64ofU64 t.current + delta) < 0 ∨
        (t.limit : Int) < wrapI64 (i64ofU64 t.current + delta)) →
      Takes.seek seekFn t (SeekFrom.current delta) =
        (Outcome.err windowViolation, t)) := by
  have mem := wrapI64_mem (i64ofU64 t.current + delta)
  constructor
  · rintro ⟨h0, h1⟩
    have he := u64ofI64_of_nonneg _ h0 mem.2
    have hne : ¬ (wrapI64 (i64ofU64 t.current + delta) < 0 ∨
        t.limit < u64ofI64 (wrapI64 (i64ofU64 t.current + delta))) := by
      push_neg
      refine ⟨h0, ?_⟩
      have : (u64ofI64 (wrapI64 (i64ofU64 t.current + delta)) : Int) ≤ (t.limit : Int) := by
        rw [he]; exact h1
      exact_mod_cast this
    simp [Takes.seek, hne]
  · intro h
    have hcond : wrapI64 (i64ofU64 t.current + delta) < 0 ∨
        t.limit < u64ofI64 (wrapI64 (i64ofU64 t.current + delta)) := by
      cases h with
      | inl h => exact Or.inl h
      | inr h =>
          right
          have h0 : 0 ≤ wrapI64 (i64ofU64 t.current + delta) :=
            le_trans (Int.ofNat_nonneg t.limit) (le_of_lt h)
          have he := u64ofI64_of_nonneg _ h0 mem.2
          have : (t.limit : Int) < (u64ofI64 (wrapI64 (i64ofU64 t.current + delta)) : Int) := by
            rw [he]; exact h
          exact_mod_cast this
    simp [Takes.seek, hcond]

/-- Concrete stream over the unit state whose reads report at most two
bytes. -/
def twoRead : Unit → Nat → Except IOError Nat × Unit :=
  fun s k => (Except.ok (min 2 k), s)

/-- Witness for C3, matching the spec scenario: after consuming 5 of
limit 10, a relative seek by -3 delegates, and one by +10 (dest = 15)
fails with the window-violation error. -/
theorem c3_relative_seek_witness :
    Takes.seek okSeek { inner := (), start := 0, limit := 10, current := 5 }
        (SeekFrom.current (-3)) =
      delegateSeek okSeek { inner := (), start := 0, limit := 10, current := 5 }
        (SeekFrom.current (-3)) ∧
    Takes.seek okSeek { inner := (), start := 0, limit := 10, current := 5 }
        (SeekFrom.current 10) =
      (Outcome.err windowViolation,
        { inner := (), start := 0, limit := 10, current := 5 }) :=
  ⟨(c3_relative_seek okSeek { inner := (), start := 0, limit := 10, current := 5 }
      (-3)).1 (by decide),
   (c3_relative_seek okSeek { inner := (), start := 0, limit := 10, current := 5 }
      10).2 (by decide)⟩

/-- C5: with a non-exhausted window (and `limit` in the u64 range), read
requests exactly `min bufLen (limit - current)` bytes from the underlying
stream in one call; when that read reports `n` bytes (at most the
requested count, the `Read` contract), `current` advances by exactly `n`
and `Ok(n)` is returned; when it fails, the error is propagated verbatim
and the fields `start`, `limit`, `current` are unchanged. -/
theorem c5_read_delegation {ρ : Type} (readFn : ρ → Nat → Except IOError Nat × ρ)
    (t : Takes ρ) (bufLen : Nat) (hcl : t.current < t.limit) (hlim : t.limit < 2 ^ 64) :
    (∀ e inner1,
        readFn t.inner (min bufLen (t.limit - t.current)) = (Except.error e, inner1) →
        Takes.read readFn t bufLen = (Outcome.err e, { t with inner := inner1 })) ∧
    (∀ n inner1,
        readFn t.inner (min bufLen (t.limit - t.current)) = (Except.ok n, inner1) →
        n ≤ min bufLen (t.limit - t.current) →
        Takes.read readFn t bufLen =
          (Outcome.ok n, { t with inner := inner1, current := t.current + n })) := by
  have hnot : ¬ t.limit < t.current := by omega
  have hrem : ¬ (t.limit - t.current = 0) := by omega
  constructor
  · intro e inner1 h
    simp [Takes.read, hnot, hrem, h]
  · intro n inner1 h hn
    simp [Takes.read, hnot, hrem, h]
    omega

/-- Witness for C5: reading 3 bytes with 5 of 10 consumed propagates the
read error of a failing stream verbatim, and advances by 2 when the
stream reports 2 bytes. -/
theorem c5_read_delegation_witness :
    Takes.read errRead { inner := (), start := 0, limit := 10, current := 5 } 3 =
      (Outcome.err (IOError.other 1 "read failure"),
        { inner := (), start := 0, limit := 10, current := 5 }) ∧
    Takes.read twoRead { inner := (), start := 0, limit := 10, current := 5 } 3 =
      (Outcome.ok 2, { inner := (), start := 0, limit := 10, current := 7 }) :=
  ⟨(c5_read_delegation errRead { inner := (), start := 0, limit := 10, current := 5 }
      3 (by decide) (by decide)).1 (IOError.other 1 "read failure") () rfl,
   (c5_read_delegation twoRead { inner := (), start := 0, limit := 10, current := 5 }
      3 (by decide) (by decide)).2 2 () rfl (by decide)⟩

/-- Helper: exhaustive case analysis of one read: panic on underflow,
immediate `Ok(0)` at end of window, propagated error, or a successful
delegated read. -/
theorem read_cases {ρ : Type} (readFn : ρ → Nat → Except IOError Nat × ρ)
    (t : Takes ρ) (k : Nat) :
    (t.limit < t.current ∧
      Takes.read readFn t k = (Outcome.abort "attempt to subtract with overflow", t)) ∨
    Takes.read readFn t k = (Outcome.ok 0, t) ∨
    (∃ e inner1, readFn t.inner (min k (t.limit - t.current)) = (Except.error e, inner1) ∧
        Takes.read readFn t k = (Outcome.err e, { t with inner := inner1 })) ∨
    (∃ n inner1, readFn t.inner (min k (t.limit - t.current)) = (Except.ok n, inner1) ∧
        t.current ≤ t.limit ∧ t.limit - t.current ≠ 0 ∧
        Takes.read readFn t k =
          (Outcome.ok n, { t with inner := inner1, current := (t.current + n) % 2 ^ 64 })) := by
  by_cases h1 : t.limit < t.current
  · exact Or.inl ⟨h1, by simp [Takes.read, h1]⟩
  · by_cases h2 : t.limit - t.current = 0
    · exact Or.inr (Or.inl (by simp [Takes.read, h1, h2]))
    · cases hr : readFn t.inner (min k (t.limit - t.current)) with
      | mk r inner1 =>
        cases r with
        | error e =>
            exact Or.inr (Or.inr (Or.inl
              ⟨e, inner1, rfl, by simp [Takes.read, h1, h2, hr]⟩))
        | ok n =>
            exact Or.inr (Or.inr (Or.inr
              ⟨n, inner1, rfl, by omega, h2, by simp [Takes.read, h1, h2, hr]⟩))

/-- Helper: read never changes the fields start and limit. -/
theorem read_frame {ρ : Type} (readFn : ρ → Nat → Except IOError Nat × ρ)
    (t : Takes ρ) (k : Nat) :
    (Takes.read readFn t k).2.start = t.start ∧
    (Takes.read readFn t k).2.limit = t.limit := by
  rcases read_cases readFn t k with ⟨_, heq⟩ | heq | ⟨e, i1, _, heq⟩ | ⟨n, i1, _, _, _, heq⟩ <;>
    rw [heq] <;> exact ⟨rfl, rfl⟩

/-- Helper: a read with a conforming underlying reader preserves the
invariant current ≤ limit. -/
theorem read_inv {ρ : Type} (readFn : ρ → Nat → Except IOError Nat × ρ)
    (hconf : Conforming readFn) (t : Takes ρ) (k : Nat) (h : t.current ≤ t.limit) :
    (Takes.read readFn t k).2.current ≤ (Takes.read readFn t k).2.limit := by
  rcases read_cases readFn t k with ⟨_, heq⟩ | heq | ⟨e, i1, _, heq⟩ |
      ⟨n, i1, hrd, _, _, heq⟩ <;> rw [heq]
  · exact h
  · exact h
  · exact h
  · have hn := hconf _ _ _ _ hrd
    have hmin : min k (t.limit - t.current) ≤ t.limit - t.current := Nat.min_le_right _ _
    simp only
    omega

/-- Helper: the delegation step never changes the fields current, start
and limit, whatever the underlying stream answers. -/
theorem delegateSeek_frame {ρ : Type} (seekFn : ρ → SeekFrom → Except IOError Nat × ρ)
    (t : Takes ρ) (sf : SeekFrom) :
    (delegateSeek seekFn t sf).2.current = t.current ∧
    (delegateSeek seekFn t sf).2.start = t.start ∧
    (delegateSeek seekFn t sf).2.limit = t.limit := by
  unfold delegateSeek
  cases hr : seekFn t.inner sf with
  | mk r i1 => cases r <;> simp

/-- Helper: every seek either leaves the state untouched (window
violation or the end-variant panic) or is a delegation step. -/
theorem seek_result {ρ : Type} (seekFn : ρ → SeekFrom → Except IOError Nat × ρ)
    (t : Takes ρ) (sf : SeekFrom) :
    (Takes.seek seekFn t sf).2 = t ∨
    ∃ sf2, Takes.seek seekFn t sf = delegateSeek seekFn t sf2 := by
  cases sf with
  | start offset =>
      by_cases hc : offset < t.start ∨ t.current < offset
      · left; simp [Takes.seek, hc]
      · right; exact ⟨SeekFrom.start offset, by simp [Takes.seek, hc]⟩
  | current delta =>
      by_cases hc : wrapI64 (i64ofU64 t.current + delta) < 0 ∨
          t.limit < u64ofI64 (wrapI64 (i64ofU64 t.current + delta))
      · left; simp [Takes.seek, hc]
      · right; exact ⟨SeekFrom.current delta, by simp [Takes.seek, hc]⟩
  | fromEnd delta => left; rfl

/-- Helper: seek never changes the fields current, start and limit. -/
theorem seek_frame {ρ : Type} (seekFn : ρ → SeekFrom → Except IOError Nat × ρ)
    (t : Takes ρ) (sf : SeekFrom) :
    (Takes.seek seekFn t sf).2.current = t.current ∧
    (Takes.seek seekFn t sf).2.start = t.start ∧
    (Takes.seek seekFn t sf).2.limit = t.limit := by
  rcases seek_result seekFn t sf with h | ⟨sf2, h⟩
  · rw [h]; exact ⟨rfl, rfl, rfl⟩
  · rw [h]; exact delegateSeek_frame seekFn t sf2

/-- Helper: a successful construction yields current = 0 and stores the
given limit. -/
theorem takes_ok {ρ : Type} (seekFn : ρ → SeekFrom → Except IOError Nat × ρ)
    (s : ρ) (l : Nat) (t0 : Takes ρ) (h : takes seekFn s l = Except.ok t0) :
    t0.current = 0 ∧ t0.limit = l := by
  unfold takes at h
  split at h
  · cases h
  · cases h
    exact ⟨rfl, rfl⟩

/-- Helper: with a conforming reader and a u64 limit, the bytes reported
over any sequence of reads total at most the remaining window. -/
theorem runReads_le {ρ : Type} (readFn : ρ → Nat → Except IOError Nat × ρ)
    (hconf : Conforming readFn) :
    ∀ (ks : List Nat) (t : Takes ρ), t.current ≤ t.limit → t.limit < 2 ^ 64 →
      (runReads readFn t ks).1 ≤ t.limit - t.current := by
  intro ks
  induction ks with
  | nil => intro t h hl; simp [runReads]
  | cons k ks ih =>
      intro t h hl
      rcases read_cases readFn t k with ⟨hlt, heq⟩ | heq | ⟨e, i1, hrd, heq⟩ |
          ⟨n, i1, hrd, _, _, heq⟩
      · omega
      · have := ih t h hl
        simp [runReads, heq]
        omega
      · have hrec := ih { t with inner := i1 } h hl
        simp only at hrec
        simp [runReads, heq]
        omega
      · have hn := hconf _ _ _ _ hrd
        have hmin : min k (t.limit - t.current) ≤ t.limit - t.current := Nat.min_le_right _ _
        have hmod : (t.current + n) % 2 ^ 64 = t.current + n := Nat.mod_eq_of_lt (by omega)
        rw [hmod] at heq
        have hrec := ih { t with inner := i1, current := t.current + n }
          (by simp only; omega) hl
        simp only at hrec
        simp [runReads, heq]
        omega

/-- Helper: the zero-byte reader honours the `Read` contract. -/
theorem zeroRead_conforming : Conforming zeroRead := by
  intro s k n s1 h
  simp [zeroRead] at h
  omega

/-- Helper: the two-byte reader honours the `Read` contract. -/
theorem twoRead_conforming : Conforming twoRead := by
  intro s k n s1 h
  simp [twoRead] at h
  omega

/-- C7: a successful seek leaves the fields current, start and limit all
unchanged, and a read never changes start or limit — only read advances
current, and no operation modifies start or limit after construction. -/
theorem c7_seek_read_frame {ρ : Type}
    (seekFn : ρ → SeekFrom → Except IOError Nat × ρ)
    (readFn : ρ → Nat → Except IOError Nat × ρ)
    (t : Takes ρ) (sf : SeekFrom) (bufLen : Nat) :
    (∀ p t1, Takes.seek seekFn t sf = (Outcome.ok p, t1) →
        t1.current = t.current ∧ t1.start = t.start ∧ t1.limit = t.limit) ∧
    ((Takes.read readFn t bufLen).2.start = t.start ∧
      (Takes.read readFn t bufLen).2.limit = t.limit) := by
  refine ⟨?_, read_frame readFn t bufLen⟩
  intro p t1 h
  have hf := seek_frame seekFn t sf
  rw [h] at hf
  exact hf

/-- Witness for C7: a successful absolute seek to offset 2 with 3 of 5
bytes consumed leaves all bookkeeping fields unchanged. -/
theorem c7_seek_read_frame_witness :
    ({ inner := (), start := 0, limit := 5, current := 3 } : Takes Unit).current =
      ({ inner := (), start := 0, limit := 5, current := 3 } : Takes Unit).current ∧
    ({ inner := (), start := 0, limit := 5, current := 3 } : Takes Unit).start =
      ({ inner := (), start := 0, limit := 5, current := 3 } : Takes Unit).start ∧
    ({ inner := (), start := 0, limit := 5, current := 3 } : Takes Unit).limit =
      ({ inner := (), start := 0, limit := 5, current := 3 } : Takes Unit).limit :=
  (c7_seek_read_frame okSeek zeroRead
      { inner := (), start := 0, limit := 5, current := 3 } (SeekFrom.start 2) 4).1
    7 { inner := (), start := 0, limit := 5, current := 3 } (by decide)

/-- C6: the invariant 0 ≤ current ≤ limit holds after construction and is
preserved by every read (with a conforming underlying reader) and every
seek, successful or failing; consequently the bytes reported across any
sequence of reads from construction total at most limit, and once
current = limit every further read returns 0 without error. -/
theorem c6_window_invariant {ρ : Type}
    (readFn : ρ → Nat → Except IOError Nat × ρ)
    (seekFn : ρ → SeekFrom → Except IOError Nat × ρ)
    (s : ρ) (limit0 : Nat) (t : Takes ρ) (hconf : Conforming readFn) :
    (∀ t0, takes seekFn s limit0 = Except.ok t0 →
        t0.current = 0 ∧ t0.current ≤ t0.limit) ∧
    (∀ k, t.current ≤ t.limit →
        (Takes.read readFn t k).2.current ≤ (Takes.read readFn t k).2.limit) ∧
    (∀ sf, t.current ≤ t.limit →
        (Takes.seek seekFn t sf).2.current ≤ (Takes.seek seekFn t sf).2.limit) ∧
    (∀ ks, t.current ≤ t.limit → t.limit < 2 ^ 64 →
        (runReads readFn t ks).1 ≤ t.limit - t.current) ∧
    (∀ t0 ks, takes seekFn s limit0 = Except.ok t0 → limit0 < 2 ^ 64 →
        (runReads readFn t0 ks).1 ≤ limit0) ∧
    (∀ k, t.current = t.limit → Takes.read readFn t k = (Outcome.ok 0, t)) := by
  refine ⟨?_, ?_, ?_, ?_, ?_, ?_⟩
  · intro t0 h
    have := takes_ok seekFn s limit0 t0 h
    omega
  · intro k h
    exact read_inv readFn hconf t k h
  · intro sf h
    have hf := seek_frame seekFn t sf
    omega
  · intro ks h hl
    exact runReads_le readFn hconf ks t h hl
  · intro t0 ks h hl
    have hc := takes_ok seekFn s limit0 t0 h
    have := runReads_le readFn hconf ks t0 (by omega) (by omega)
    omega
  · intro k h
    simp [Takes.read, h]

/-- Witness for C6: reading with buffers of three bytes from a window of
limit 5 over a stream that reports two bytes at a time totals exactly 5
bytes, not more. -/
theorem c6_window_invariant_witness :
    (runReads twoRead { inner := (), start := 7, limit := 5, current := 0 } [3, 3, 3]).1 ≤ 5 :=
  (c6_window_invariant twoRead okSeek () 5
      { inner := (), start := 7, limit := 5, current := 0 } twoRead_conforming).2.2.2.2.1
    { inner := (), start := 7, limit := 5, current := 0 } [3, 3, 3] rfl (by decide)

/-- C10: in every state reachable from construction through any sequence
of read and seek operations with a conforming underlying reader,
current ≤ limit holds, so the unchecked u64 subtraction limit - current
at the start of read never underflows: the overflow branch is unreachable
and read never panics on its own account. -/
theorem c10_read_never_panics {ρ : Type}
    (readFn : ρ → Nat → Except IOError Nat × ρ)
    (seekFn : ρ → SeekFrom → Except IOError Nat × ρ)
    (t : Takes ρ) (hconf : Conforming readFn)
    (hreach : Reachable readFn seekFn t) :
    t.current ≤ t.limit ∧
    ∀ k msg, (Takes.read readFn t k).1 ≠ Outcome.abort msg := by
  have hinv : t.current ≤ t.limit := by
    induction hreach with
    | init s l t0 h =>
        have := takes_ok seekFn s l t0 h
        omega
    | read t0 k _ ih => exact read_inv readFn hconf t0 k ih
    | seek t0 sf _ ih =>
        have hf := seek_frame seekFn t0 sf
        omega
  refine ⟨hinv, ?_⟩
  intro k msg
  rcases read_cases readFn t k with ⟨hlt, heq⟩ | heq | ⟨e, i1, _, heq⟩ |
      ⟨n, i1, _, _, _, heq⟩
  · omega
  · rw [heq]; simp
  · rw [heq]; simp
  · rw [heq]; simp

/-- Witness for C10: the freshly constructed state with start 7 and
limit 5 is reachable, satisfies the invariant, and its next read cannot
hit the subtraction overflow branch. -/
theorem c10_read_never_panics_witness :
    ({ inner := (), start := 7, limit := 5, current := 0 } : Takes Unit).current ≤
      ({ inner := (), start := 7, limit := 5, current := 0 } : Takes Unit).limit ∧
    (Takes.read zeroRead { inner := (), start := 7, limit := 5, current := 0 } 3).1 ≠
      Outcome.abort "attempt to subtract with overflow" := by
  have h := c10_read_never_panics zeroRead okSeek
      { inner := (), start := 7, limit := 5, current := 0 } zeroRead_conforming
      (Reachable.init () 5 { inner := (), start := 7, limit := 5, current := 0 } rfl)
  exact ⟨h.1, h.2 3 "attempt to subtract with overflow"⟩
